import Mathlib

/-!
# Phrasenschwein back end (`src/server.js`)

A shallow embedding of the request handlers of `server.js`.

* The state of the server is the parsed contents of the two JSON files
  (`data.json`, `users.json`) and the live `Object.prototype` of the process.
  Every handler re-reads its file with `JSON.parse`, so an object is
  represented by its own enumerable properties (an association list in
  insertion order) and inherits from `Object.prototype`.
* Property reads `o[k]` follow the prototype chain: an own property wins,
  otherwise the members of `Object.prototype` are found, the built-in ones and
  the two that `POST /api/increment/__proto__` adds to it.
* A write with `JSON.stringify` followed by the next `JSON.parse` turns a
  number beyond the double range into `null`; `writeData` is that round trip,
  and the bodies sent by `res.json` go through it as well.
* `bcrypt`, `uuid`, `Date` and the number conversions of the engine on values
  that are not natural numbers are taken as inputs of the handlers.
* The request body and route parameters are inputs of the handlers (strings
  for names, usernames and passwords).  `server.js` itself registers no
  body-parsing middleware; the handlers are modelled on the request object
  they read, with `req.body` carrying the fields they use.
* `readUsers` and `writeUsers` only move a value between the file and the
  handler (the file holds strings only), so they do not appear: a handler
  returns the new contents of its file, and the old contents when it does not
  write.
* A handler either responds or throws; a thrown error never reaches
  `writeData` / `writeUsers`, so the files are unchanged in that case.
-/

namespace Phrasenschwein

/-! ## JavaScript objects as parsed from JSON -/

/-- Own enumerable properties of an object produced by `JSON.parse`. -/
abbrev JsObj (V : Type) := List (String × V)

/-- Names of the built-in members of `Object.prototype`, inherited by every
object that `JSON.parse` creates.  All of them are function objects, except
`__proto__`, an accessor whose getter yields `Object.prototype` itself. -/
def objectPrototypeKeys : List String :=
  ["constructor", "__defineGetter__", "__defineSetter__", "hasOwnProperty",
   "__lookupGetter__", "__lookupSetter__", "isPrototypeOf", "propertyIsEnumerable",
   "toString", "valueOf", "__proto__", "toLocaleString"]

/-- Live `Object.prototype` of the server process, as far as requests change
it: `none` as at process start; `some ts` once the increment handler has run
`count++` and `lastClickedAt = ts` on `Object.prototype` itself, which leaves
two enumerable properties on it, `count` (NaN) and `lastClickedAt` (`ts`). -/
abbrev ProtoState := Option String

/-- The prototype state at process start. -/
def pristine : ProtoState := none

/-- Result of a property read `o[k]`. -/
inductive Lookup (V : Type) where
  /-- an own property of the object -/
  | own (v : V)
  /-- a built-in member of `Object.prototype` (a function, or the prototype object) -/
  | inherited (key : String)
  /-- the property `count` added to `Object.prototype`: the number NaN -/
  | addedCount
  /-- the property `lastClickedAt` added to `Object.prototype`: a string -/
  | addedStamp (ts : String)
  /-- the value `undefined` -/
  | undefined
  deriving DecidableEq, Repr

/-- Own property lookup (`Object.hasOwn` together with the value). -/
def getOwnProp {V : Type} : JsObj V → String → Option V
  | [], _ => none
  | (k, v) :: rest, key => if k = key then some v else getOwnProp rest key

/-- Property read `o[key]` on an object whose prototype is `Object.prototype`. -/
def getProp {V : Type} (proto : ProtoState) (o : JsObj V) (key : String) : Lookup V :=
  match getOwnProp o key with
  | some v => .own v
  | none =>
    if key ∈ objectPrototypeKeys then .inherited key
    else
      match proto with
      | none => .undefined
      | some ts =>
        if key = "count" then .addedCount
        else if key = "lastClickedAt" then .addedStamp ts
        else .undefined

/-- Optional chaining `o?.[key]`. -/
def getPropOpt {V : Type} (proto : ProtoState) (o : Option (JsObj V)) (key : String) :
    Lookup V :=
  match o with
  | none => .undefined
  | some obj => getProp proto obj key

/-- Overwrite of an existing own property, keeping its position. -/
def replaceOwnProp {V : Type} : JsObj V → String → V → JsObj V
  | [], _, _ => []
  | (k, w) :: rest, key, v =>
    if k = key then (key, v) :: replaceOwnProp rest key v
    else (k, w) :: replaceOwnProp rest key v

/-- Assignment `o[key] = v`, as far as the own properties that `JSON.stringify`
later writes are concerned.  An existing own property is overwritten; a new
key is appended (the members of `Object.prototype` other than `__proto__` are
writable data properties, so they are shadowed by a new own property);
assigning to `__proto__` without an own property of that name runs the setter
of `Object.prototype`, which creates no own property. -/
def setProp {V : Type} (o : JsObj V) (key : String) (v : V) : JsObj V :=
  match getOwnProp o key with
  | some _ => replaceOwnProp o key v
  | none => if key = "__proto__" then o else o ++ [(key, v)]

/-- Statement `delete o[key]`: removes an own property, never an inherited one. -/
def deleteProp {V : Type} : JsObj V → String → JsObj V
  | [], _ => []
  | (k, w) :: rest, key =>
    if k = key then deleteProp rest key else (k, w) :: deleteProp rest key

/-- Own keys of an object. -/
def ownKeys {V : Type} (o : JsObj V) : List String := o.map Prod.fst

/-! ## Values stored in `data.json` -/

/-- Values that `JSON.parse` yields.  A finite number is given by its exact
value, a rational that is a double (a literal is rounded to one by the
parser, so other rationals do not occur); a number literal beyond the double
range parses to an infinity. -/
inductive JsVal where
  | null
  | bool (b : Bool)
  | num (q : ℚ)
  | infinity (negative : Bool)
  | str (s : String)
  | arr (items : List JsVal)
  | obj (props : List (String × JsVal))
  deriving Repr

mutual
/-- Decision of equality on values. -/
def decEqJsVal : (a b : JsVal) → Decidable (a = b)
  | .null, .null => isTrue rfl
  | .bool a, .bool b =>
    if h : a = b then isTrue (by rw [h]) else isFalse (by intro e; cases e; exact h rfl)
  | .num a, .num b =>
    if h : a = b then isTrue (by rw [h]) else isFalse (by intro e; cases e; exact h rfl)
  | .infinity a, .infinity b =>
    if h : a = b then isTrue (by rw [h]) else isFalse (by intro e; cases e; exact h rfl)
  | .str a, .str b =>
    if h : a = b then isTrue (by rw [h]) else isFalse (by intro e; cases e; exact h rfl)
  | .arr a, .arr b =>
    match decEqJsValList a b with
    | isTrue h => isTrue (by rw [h])
    | isFalse h => isFalse (by intro e; cases e; exact h rfl)
  | .obj a, .obj b =>
    match decEqJsValProps a b with
    | isTrue h => isTrue (by rw [h])
    | isFalse h => isFalse (by intro e; cases e; exact h rfl)
  | .null, .bool _ => isFalse (by intro e; cases e)
  | .null, .num _ => isFalse (by intro e; cases e)
  | .null, .infinity _ => isFalse (by intro e; cases e)
  | .null, .str _ => isFalse (by intro e; cases e)
  | .null, .arr _ => isFalse (by intro e; cases e)
  | .null, .obj _ => isFalse (by intro e; cases e)
  | .bool _, .null => isFalse (by intro e; cases e)
  | .bool _, .num _ => isFalse (by intro e; cases e)
  | .bool _, .infinity _ => isFalse (by intro e; cases e)
  | .bool _, .str _ => isFalse (by intro e; cases e)
  | .bool _, .arr _ => isFalse (by intro e; cases e)
  | .bool _, .obj _ => isFalse (by intro e; cases e)
  | .num _, .null => isFalse (by intro e; cases e)
  | .num _, .bool _ => isFalse (by intro e; cases e)
  | .num _, .infinity _ => isFalse (by intro e; cases e)
  | .num _, .str _ => isFalse (by intro e; cases e)
  | .num _, .arr _ => isFalse (by intro e; cases e)
  | .num _, .obj _ => isFalse (by intro e; cases e)
  | .infinity _, .null => isFalse (by intro e; cases e)
  | .infinity _, .bool _ => isFalse (by intro e; cases e)
  | .infinity _, .num _ => isFalse (by intro e; cases e)
  | .infinity _, .str _ => isFalse (by intro e; cases e)
  | .infinity _, .arr _ => isFalse (by intro e; cases e)
  | .infinity _, .obj _ => isFalse (by intro e; cases e)
  | .str _, .null => isFalse (by intro e; cases e)
  | .str _, .bool _ => isFalse (by intro e; cases e)
  | .str _, .num _ => isFalse (by intro e; cases e)
  | .str _, .infinity _ => isFalse (by intro e; cases e)
  | .str _, .arr _ => isFalse (by intro e; cases e)
  | .str _, .obj _ => isFalse (by intro e; cases e)
  | .arr _, .null => isFalse (by intro e; cases e)
  | .arr _, .bool _ => isFalse (by intro e; cases e)
  | .arr _, .num _ => isFalse (by intro e; cases e)
  | .arr _, .infinity _ => isFalse (by intro e; cases e)
  | .arr _, .str _ => isFalse (by intro e; cases e)
  | .arr _, .obj _ => isFalse (by intro e; cases e)
  | .obj _, .null => isFalse (by intro e; cases e)
  | .obj _, .bool _ => isFalse (by intro e; cases e)
  | .obj _, .num _ => isFalse (by intro e; cases e)
  | .obj _, .infinity _ => isFalse (by intro e; cases e)
  | .obj _, .str _ => isFalse (by intro e; cases e)
  | .obj _, .arr _ => isFalse (by intro e; cases e)
/-- Decision of equality on arrays of values. -/
def decEqJsValList : (a b : List JsVal) → Decidable (a = b)
  | [], b =>
    match b with
    | [] => isTrue rfl
    | _ :: _ => isFalse (by intro e; cases e)
  | x :: xs, b =>
    match b with
    | [] => isFalse (by intro e; cases e)
    | y :: ys =>
      match decEqJsVal x y with
      | isFalse hx => isFalse (by intro e; cases e; exact hx rfl)
      | isTrue hx =>
        match decEqJsValList xs ys with
        | isFalse hs => isFalse (by intro e; cases e; exact hs rfl)
        | isTrue hs => isTrue (by rw [hx, hs])
/-- Decision of equality on property lists. -/
def decEqJsValProps : (a b : List (String × JsVal)) → Decidable (a = b)
  | [], b =>
    match b with
    | [] => isTrue rfl
    | _ :: _ => isFalse (by intro e; cases e)
  | (k, x) :: xs, b =>
    match b with
    | [] => isFalse (by intro e; cases e)
    | (l, y) :: ys =>
      if hk : k = l then
        match decEqJsVal x y with
        | isFalse hx => isFalse (by intro e; cases e; exact hx rfl)
        | isTrue hx =>
          match decEqJsValProps xs ys with
          | isFalse hs => isFalse (by intro e; cases e; exact hs rfl)
          | isTrue hs => isTrue (by rw [hk, hx, hs])
      else isFalse (by intro e; cases e; exact hk rfl)
end

/-- Equality of values is decidable. -/
@[instance] def instDecidableEqJsVal : DecidableEq JsVal := decEqJsVal

/-- The number 0.5, the default of `valuePerClick`, in lowest terms. -/
def oneHalf : ℚ := ⟨1, 2, by decide, by decide⟩

/-- Counter record `{count, lastClickedAt}` with a natural count. -/
def JsVal.counter (count : Nat) (lastClickedAt : Option String) : JsVal :=
  .obj [("count", .num count),
    ("lastClickedAt", match lastClickedAt with
      | none => .null
      | some ts => .str ts)]

/-- JavaScript truthiness of a value. -/
def JsVal.truthy : JsVal → Bool
  | .null => false
  | .bool b => b
  | .num q => decide (q ≠ 0)
  | .infinity _ => true
  | .str s => decide (s ≠ "")
  | .arr _ => true
  | .obj _ => true

mutual
/-- A value after `JSON.stringify` and `JSON.parse`: infinities are written as
`null`, at every depth. -/
def jsonRoundTrip : JsVal → JsVal
  | .null => .null
  | .bool b => .bool b
  | .num q => .num q
  | .infinity _ => .null
  | .str s => .str s
  | .arr items => .arr (jsonRoundTripList items)
  | .obj props => .obj (jsonRoundTripProps props)
/-- The round trip on the items of an array. -/
def jsonRoundTripList : List JsVal → List JsVal
  | [] => []
  | v :: rest => jsonRoundTrip v :: jsonRoundTripList rest
/-- The round trip on the properties of an object. -/
def jsonRoundTripProps : List (String × JsVal) → List (String × JsVal)
  | [] => []
  | (k, v) :: rest => (k, jsonRoundTrip v) :: jsonRoundTripProps rest
end

/-- Truthiness of `data[key]`; built-in members are objects, hence truthy. -/
def truthyVal : Lookup JsVal → Bool
  | .own v => v.truthy
  | .inherited _ => true
  | .addedCount => false
  | .addedStamp ts => decide (ts ≠ "")
  | .undefined => false

/-- Truthiness of `sessions[token]`, a username string when own. -/
def truthyStr : Lookup String → Bool
  | .own s => decide (s ≠ "")
  | .inherited _ => true
  | .addedCount => false
  | .addedStamp ts => decide (ts ≠ "")
  | .undefined => false

/-! ## Values stored in `users.json` -/

/-- User record `{passwordHash, createdAt}`. -/
structure UserRec where
  passwordHash : String
  createdAt : String
  deriving DecidableEq, Repr

/-- Contents of `users.json`: both tables may be missing from the file. -/
structure UsersData where
  users : Option (JsObj UserRec)
  sessions : Option (JsObj String)
  deriving DecidableEq, Repr

/-- State of the server: the two files and the live `Object.prototype`. -/
structure Store where
  data : JsObj JsVal
  users : UsersData
  proto : ProtoState
  deriving DecidableEq, Repr

/-- Password hashing primitive (`bcrypt.hash(p, 10)` and `bcrypt.compare`). -/
structure Bcrypt where
  hash : String → String
  compare : String → String → Bool

/-- Number conversions of the JavaScript engine that are taken as an input:
for a `count` that is a negative or fractional number, a string, an array or
an object, `countPlusOne` is the value that `count++` leaves as
`JSON.stringify` writes it (`null` for NaN and the infinities), or `none`
when the conversion to a number throws. -/
structure Engine where
  countPlusOne : JsVal → Option JsVal

/-! ## Responses -/

/-- JSON body of a response of the mutating routes: `{message}`, or the
`{token, username}` of a successful login; `notRouted` is the page of the
framework for a request that matches no route. -/
inductive Body where
  | message (text : String)
  | login (token username : String)
  | notRouted
  deriving DecidableEq, Repr

/-- Response sent with `res.status(code).json(body)`; `res.json` alone sends 200. -/
structure Response where
  status : Nat
  body : Body
  deriving DecidableEq, Repr

/-- What a handler does: it responds, or an error escapes from it (answered
with 500 by the framework for a synchronous handler, left unanswered for an
asynchronous one). -/
inductive Outcome where
  | responded (r : Response)
  | threw
  deriving DecidableEq, Repr

/-- Status code of an outcome, if the handler responded. -/
def Outcome.status? : Outcome → Option Nat
  | .responded r => some r.status
  | .threw => none

/-! ## Helper functions of `server.js` -/

/-- Function `readData`: parse the file, default a falsy `valuePerClick` to 0.5. -/
def readData (proto : ProtoState) (file : JsObj JsVal) : JsObj JsVal :=
  if !truthyVal (getProp proto file "valuePerClick") then
    setProp file "valuePerClick" (.num oneHalf)
  else file

/-- Function `writeData`, given as the contents that the next `readData`
parses from the file written. -/
def writeData (data : JsObj JsVal) : JsObj JsVal := jsonRoundTripProps data

/-- Result of `authMiddleware`: a 401 response, or `next()` with `req.user`. -/
inductive AuthResult where
  | rejected (r : Response)
  | next (user : Lookup String)
  deriving DecidableEq, Repr

/-- The 401 response of `authMiddleware`. -/
def notLoggedIn : Response := ⟨401, .message "Nicht eingeloggt"⟩

/-- Function `authMiddleware`; `authorization` is `req.headers.authorization`. -/
def authMiddleware (proto : ProtoState) (usersData : UsersData)
    (authorization : Option String) : AuthResult :=
  match authorization with
  | none => .rejected notLoggedIn
  | some token =>
    if token = "" || !truthyStr (getPropOpt proto usersData.sessions token) then
      .rejected notLoggedIn
    else
      .next (getPropOpt proto usersData.sessions token)

/-! ## Public routes -/

/-- Route `GET /api/names`: the body sent, the parsed data without
`valuePerClick`. -/
def listCounters (proto : ProtoState) (file : JsObj JsVal) : JsObj JsVal :=
  jsonRoundTripProps (deleteProp (readData proto file) "valuePerClick")

/-- Route `GET /api/config`: the `valuePerClick` field of the body sent, which
is `data.valuePerClick` after `readData`. -/
def getConfig (proto : ProtoState) (file : JsObj JsVal) : Lookup JsVal :=
  match getProp proto (readData proto file) "valuePerClick" with
  | .own v => .own (jsonRoundTrip v)
  | other => other

/-! ## Authenticated routes -/

/-- Handler of `POST /api/config`; a body without `valuePerClick` assigns
`undefined`, which `JSON.stringify` leaves out of the file. -/
def configHandler (proto : ProtoState) (file : JsObj JsVal) (valuePerClick : Option JsVal) :
    Outcome × JsObj JsVal :=
  let data := readData proto file
  let data := match valuePerClick with
    | some v => setProp data "valuePerClick" v
    | none => deleteProp data "valuePerClick"
  (.responded ⟨200, .message "Wert gespeichert"⟩, writeData data)

/-- Handler of `POST /api/add`. -/
def addHandler (proto : ProtoState) (file : JsObj JsVal) (name : String) :
    Outcome × JsObj JsVal :=
  let data := readData proto file
  if !truthyVal (getProp proto data name) then
    (.responded ⟨201, .message "Hinzugefügt"⟩, writeData (setProp data name (.counter 0 none)))
  else
    (.responded ⟨400, .message "Name existiert bereits"⟩, file)

/-- The sum `n + 1` in double arithmetic, for a natural number `n` that is a
double: exact below 2^53, rounded to nearest with ties to even from there on
(where doubles are 2 apart up to 2^54 and at least 4 apart beyond). -/
def doubleSucc (n : Nat) : Nat :=
  if n < 2 ^ 53 then n + 1
  else if n < 2 ^ 54 then (if (n / 2) % 2 = 0 then n else n + 2)
  else n

/-- The value that `count++` leaves in `count`, as `JSON.stringify` writes it:
`old` is the own `count` of the object, and a missing one reads as
`undefined` or as the NaN added to `Object.prototype`, both of which give NaN,
written as `null`.  The result is `none` when the conversion throws. -/
def countPlusOne (engine : Engine) (old : Option JsVal) : Option JsVal :=
  match old with
  | none => some .null
  | some .null => some (.num 1)
  | some (.bool b) => some (.num (if b then 2 else 1))
  | some (.infinity _) => some .null
  | some (.num q) =>
    if q.den = 1 ∧ 0 ≤ q.num then some (.num (doubleSucc q.num.toNat))
    else engine.countPlusOne (.num q)
  | some v => engine.countPlusOne v

/-- Handler of `POST /api/increment/:name`; `now` is `new Date().toISOString()`.
The result carries the prototype state: on the built-in member `__proto__`
the two assignments land on `Object.prototype` itself; on the other built-in
members they land on a function object that no later read reaches; in both
cases the data is written back as read.  On an array the new properties are
not written by `JSON.stringify`.  On a truthy primitive the assignment throws
(module code is strict). -/
def incrementHandler (engine : Engine) (proto : ProtoState) (file : JsObj JsVal)
    (name now : String) : Outcome × JsObj JsVal × ProtoState :=
  let data := readData proto file
  match getProp proto data name with
  | .own (.obj props) =>
    match countPlusOne engine (getOwnProp props "count") with
    | none => (.threw, file, proto)
    | some c =>
      (.responded ⟨200, .message "Zähler erhöht"⟩,
        writeData (setProp data name
          (.obj (setProp (setProp props "count" c) "lastClickedAt" (.str now)))),
        proto)
  | .own (.arr _) => (.responded ⟨200, .message "Zähler erhöht"⟩, writeData data, proto)
  | .own v =>
    if v.truthy then (.threw, file, proto)
    else (.responded ⟨404, .message "Name nicht gefunden"⟩, file, proto)
  | .inherited key =>
    (.responded ⟨200, .message "Zähler erhöht"⟩, writeData data,
      if key = "__proto__" then some now else proto)
  | .addedStamp ts =>
    if ts ≠ "" then (.threw, file, proto)
    else (.responded ⟨404, .message "Name nicht gefunden"⟩, file, proto)
  | .addedCount => (.responded ⟨404, .message "Name nicht gefunden"⟩, file, proto)
  | .undefined => (.responded ⟨404, .message "Name nicht gefunden"⟩, file, proto)

/-- Body of the `for ... in` loop of the reset handler on one own property:
`none` when the assignment throws (the value is `null` or a primitive); on an
array the new properties are not written by `JSON.stringify`. -/
def resetEntry (p : String × JsVal) : Option (String × JsVal) :=
  if p.1 ≠ "valuePerClick" then
    match p.2 with
    | .obj props => some (p.1, .obj (setProp (setProp props "count" (.num 0)) "lastClickedAt" .null))
    | .arr items => some (p.1, .arr items)
    | _ => none
  else some p

/-- The loop `for (const name in data)` of the reset handler over the own
properties, in order; `none` when an iteration throws. -/
def resetLoop : JsObj JsVal → Option (JsObj JsVal)
  | [] => some []
  | p :: rest =>
    match resetEntry p with
    | none => none
    | some q => (resetLoop rest).map (fun done => q :: done)

/-- Whether the loop `for (const name in data)` goes on to an enumerable
property inherited from `Object.prototype`: the added `count` or
`lastClickedAt`, unless the data has own properties of both names.  Their
values are a number and a string, so the assignment throws there. -/
def visitsInherited (proto : ProtoState) (data : JsObj JsVal) : Bool :=
  match proto with
  | none => false
  | some _ => !("count" ∈ ownKeys data ∧ "lastClickedAt" ∈ ownKeys data)

/-- Handler of `POST /api/reset`. -/
def resetHandler (proto : ProtoState) (file : JsObj JsVal) : Outcome × JsObj JsVal :=
  match resetLoop (readData proto file) with
  | some data =>
    if visitsInherited proto (readData proto file) then (.threw, file)
    else (.responded ⟨200, .message "Zurückgesetzt"⟩, writeData data)
  | none => (.threw, file)

/-- Handler of `DELETE /api/delete/:name`. -/
def deleteHandler (proto : ProtoState) (file : JsObj JsVal) (name : String) :
    Outcome × JsObj JsVal :=
  let data := readData proto file
  if truthyVal (getProp proto data name) then
    (.responded ⟨200, .message "Name gelöscht"⟩, writeData (deleteProp data name))
  else
    (.responded ⟨404, .message "Name nicht gefunden"⟩, file)

/-- Composition `app.METHOD(path, authMiddleware, handler)` on the data file. -/
def withAuth (st : Store) (authorization : Option String)
    (handler : JsObj JsVal → Outcome × JsObj JsVal) : Outcome × Store :=
  match authMiddleware st.proto st.users authorization with
  | .rejected r => (.responded r, st)
  | .next _ =>
    let res := handler st.data
    (res.1, { st with data := res.2 })

/-- Answer of the framework to a request that matches no route; a path
parameter `:name` does not match the empty string. -/
def notRouted : Response := ⟨404, .notRouted⟩

/-- Route `POST /api/config`. -/
def postConfig (st : Store) (authorization : Option String) (valuePerClick : Option JsVal) :
    Outcome × Store :=
  withAuth st authorization (fun file => configHandler st.proto file valuePerClick)

/-- Route `POST /api/add`. -/
def postAdd (st : Store) (authorization : Option String) (name : String) : Outcome × Store :=
  withAuth st authorization (fun file => addHandler st.proto file name)

/-- Route `POST /api/increment/:name`. -/
def postIncrement (engine : Engine) (st : Store) (authorization : Option String)
    (name now : String) : Outcome × Store :=
  if name = "" then (.responded notRouted, st)
  else
    match authMiddleware st.proto st.users authorization with
    | .rejected r => (.responded r, st)
    | .next _ =>
      let res := incrementHandler engine st.proto st.data name now
      (res.1, { st with data := res.2.1, proto := res.2.2 })

/-- Route `POST /api/reset`. -/
def postReset (st : Store) (authorization : Option String) : Outcome × Store :=
  withAuth st authorization (fun file => resetHandler st.proto file)

/-- Route `DELETE /api/delete/:name`. -/
def deleteName (st : Store) (authorization : Option String) (name : String) : Outcome × Store :=
  if name = "" then (.responded notRouted, st)
  else withAuth st authorization (fun file => deleteHandler st.proto file name)

/-! ## Credential routes -/

/-- Truthiness of `users[username]`: a user record is an object. -/
def truthyUser : Lookup UserRec → Bool
  | .own _ => true
  | .inherited _ => true
  | .addedCount => false
  | .addedStamp ts => decide (ts ≠ "")
  | .undefined => false

/-- Route `POST /api/register`; `now` is `new Date().toISOString()`. -/
def register (bc : Bcrypt) (proto : ProtoState) (usersData : UsersData)
    (username password now : String) : Outcome × UsersData :=
  if truthyUser (getPropOpt proto usersData.users username) then
    (.responded ⟨400, .message "Benutzer existiert bereits"⟩, usersData)
  else
    let passwordHash := bc.hash password
    let users := usersData.users.getD []
    let sessions := usersData.sessions.getD []
    (.responded ⟨201, .message "Benutzer registriert"⟩,
      { users := some (setProp users username ⟨passwordHash, now⟩), sessions := some sessions })

/-- Route `POST /api/login`; `token` is the value returned by `uuidv4()`.
An inherited member has no `passwordHash`, and `bcrypt.compare` rejects a
missing hash; a missing `sessions` table makes the assignment throw. -/
def login (bc : Bcrypt) (proto : ProtoState) (usersData : UsersData)
    (username password token : String) : Outcome × UsersData :=
  match getPropOpt proto usersData.users username with
  | .undefined => (.responded ⟨401, .message "Login fehlgeschlagen"⟩, usersData)
  | .addedCount => (.responded ⟨401, .message "Login fehlgeschlagen"⟩, usersData)
  | .addedStamp ts =>
    if ts ≠ "" then (.threw, usersData)
    else (.responded ⟨401, .message "Login fehlgeschlagen"⟩, usersData)
  | .inherited _ => (.threw, usersData)
  | .own user =>
    if !bc.compare password user.passwordHash then
      (.responded ⟨401, .message "Login fehlgeschlagen"⟩, usersData)
    else
      match usersData.sessions with
      | none => (.threw, usersData)
      | some sessions =>
        (.responded ⟨200, .login token username⟩,
          { usersData with sessions := some (setProp sessions token username) })

/-- Route `POST /api/logout`. -/
def logout (proto : ProtoState) (usersData : UsersData) (authorization : Option String) :
    Outcome × UsersData :=
  match authorization with
  | none => (.responded ⟨200, .message "Abgemeldet"⟩, usersData)
  | some token =>
    if token ≠ "" && truthyStr (getPropOpt proto usersData.sessions token) then
      (.responded ⟨200, .message "Abgemeldet"⟩,
        { usersData with sessions := (usersData.sessions.map (fun s => deleteProp s token)) })
    else
      (.responded ⟨200, .message "Abgemeldet"⟩, usersData)

/-- Format of `uuidv4()` results, as far as it is used here: 36 characters. -/
def uuidFormat (token : String) : Bool := decide (token.length = 36)

/-! ## Concrete inputs used to run the handlers -/

/-- A stand-in for bcrypt to run the handlers on concrete inputs: the hash is
the password behind a marker, and `compare` recomputes it. -/
def markerBcrypt : Bcrypt :=
  ⟨fun p => "$2b$" ++ p, fun p h => decide (h = "$2b$" ++ p)⟩

/-- An engine input for runs that ask no conversion of it: it answers every
conversion as a throw. -/
def unusedEngine : Engine := ⟨fun _ => none⟩

/-- Contents of `users.json` with both tables present and empty. -/
def emptyTables : UsersData := ⟨some [], some []⟩

/-- Contents of `users.json` with one user `bilal` and one session `T`. -/
def bilalSession : UsersData :=
  ⟨some [("bilal", ⟨"$2b$pw1", "2024-01-01T00:00:00.000Z"⟩)], some [("T", "bilal")]⟩

/-- A freshly started server with two counters, a configured value of 2 and a
session `T`. -/
def sampleStore : Store :=
  ⟨[("alice", .counter 3 (some "2024-01-02T00:00:00.000Z")), ("valuePerClick", .num 2),
    ("bob", .counter 0 none)], bilalSession, pristine⟩

/-! ## Properties of the object operations -/

section ObjectLemmas

theorem getOwnProp_replaceOwnProp_other {V : Type} (o : JsObj V) (k k2 : String) (v : V) (h : k2 ≠ k) :
    getOwnProp (replaceOwnProp o k v) k2 = getOwnProp o k2 := by
  induction o with
  | nil => rfl
  | cons p rest ih =>
    obtain ⟨a, b⟩ := p
    by_cases hak : a = k
    · have h2 : ¬ k = k2 := fun e => h e.symm
      have h3 : ¬ a = k2 := fun e => h (by rw [← e, hak])
      simp only [replaceOwnProp, if_pos hak, getOwnProp, if_neg h2, if_neg h3]
      exact ih
    · by_cases hk2 : a = k2
      · simp only [replaceOwnProp, if_neg hak, getOwnProp, if_pos hk2]
      · simp only [replaceOwnProp, if_neg hak, getOwnProp, if_neg hk2]
        exact ih

theorem getOwnProp_replaceOwnProp_same {V : Type} (o : JsObj V) (k : String) (v w : V)
    (h : getOwnProp o k = some w) : getOwnProp (replaceOwnProp o k v) k = some v := by
  induction o with
  | nil => simp [getOwnProp] at h
  | cons p rest ih =>
    obtain ⟨a, b⟩ := p
    by_cases hak : a = k
    · simp only [replaceOwnProp, if_pos hak, getOwnProp, if_true]
    · simp only [getOwnProp, if_neg hak] at h
      simp only [replaceOwnProp, if_neg hak, getOwnProp]
      exact ih h

theorem getOwnProp_append {V : Type} (o : JsObj V) (k k2 : String) (v : V) :
    getOwnProp (o ++ [(k, v)]) k2 =
      match getOwnProp o k2 with
      | some x => some x
      | none => if k = k2 then some v else none := by
  induction o with
  | nil => simp [getOwnProp]
  | cons p rest ih =>
    obtain ⟨a, b⟩ := p
    by_cases hak : a = k2
    · simp [getOwnProp, hak]
    · simpa [getOwnProp, hak] using ih

theorem getOwnProp_setProp_other {V : Type} (o : JsObj V) (k k2 : String) (v : V) (h : k2 ≠ k) :
    getOwnProp (setProp o k v) k2 = getOwnProp o k2 := by
  unfold setProp
  cases hk : getOwnProp o k with
  | some w => simpa using getOwnProp_replaceOwnProp_other o k k2 v h
  | none =>
    by_cases hp : k = "__proto__"
    · simp [hp]
    · have h2 : ¬ k = k2 := fun e => h e.symm
      simp only [if_neg hp, getOwnProp_append, if_neg h2]
      cases getOwnProp o k2 <;> rfl

theorem getOwnProp_setProp_same {V : Type} (o : JsObj V) (k : String) (v : V)
    (h : k ≠ "__proto__" ∨ (getOwnProp o k).isSome = true) :
    getOwnProp (setProp o k v) k = some v := by
  unfold setProp
  cases hk : getOwnProp o k with
  | some w => simpa using getOwnProp_replaceOwnProp_same o k v w hk
  | none =>
    have hp : k ≠ "__proto__" := by
      rcases h with h | h
      · exact h
      · simp [hk] at h
    simp [if_neg hp, getOwnProp_append, hk]

theorem getOwnProp_deleteProp_same {V : Type} (o : JsObj V) (k : String) :
    getOwnProp (deleteProp o k) k = none := by
  induction o with
  | nil => rfl
  | cons p rest ih =>
    obtain ⟨a, b⟩ := p
    by_cases hak : a = k
    · simp only [deleteProp, if_pos hak]
      exact ih
    · simp only [deleteProp, if_neg hak, getOwnProp]
      exact ih

theorem getOwnProp_deleteProp_other {V : Type} (o : JsObj V) (k k2 : String) (h : k2 ≠ k) :
    getOwnProp (deleteProp o k) k2 = getOwnProp o k2 := by
  induction o with
  | nil => rfl
  | cons p rest ih =>
    obtain ⟨a, b⟩ := p
    by_cases hak : a = k
    · have h3 : ¬ a = k2 := fun e => h (by rw [← e, hak])
      simp only [deleteProp, if_pos hak, getOwnProp, if_neg h3]
      exact ih
    · by_cases hk2 : a = k2
      · simp only [deleteProp, if_neg hak, getOwnProp, if_pos hk2]
      · simp only [deleteProp, if_neg hak, getOwnProp, if_neg hk2]
        exact ih

theorem deleteProp_replaceOwnProp_same {V : Type} (o : JsObj V) (k : String) (v : V) :
    deleteProp (replaceOwnProp o k v) k = deleteProp o k := by
  induction o with
  | nil => rfl
  | cons p rest ih =>
    obtain ⟨a, b⟩ := p
    by_cases hak : a = k
    · simp only [replaceOwnProp, if_pos hak, deleteProp, if_true]
      exact ih
    · simp only [replaceOwnProp, if_neg hak, deleteProp]
      rw [ih]

theorem deleteProp_append_same {V : Type} (o : JsObj V) (k : String) (v : V) :
    deleteProp (o ++ [(k, v)]) k = deleteProp o k := by
  induction o with
  | nil => simp [deleteProp]
  | cons p rest ih =>
    obtain ⟨a, b⟩ := p
    by_cases hak : a = k
    · simp only [List.cons_append, deleteProp, if_pos hak]
      exact ih
    · simp only [List.cons_append, deleteProp, if_neg hak]
      exact congrArg (List.cons (a, b)) ih

theorem deleteProp_setProp_same {V : Type} (o : JsObj V) (k : String) (v : V) :
    deleteProp (setProp o k v) k = deleteProp o k := by
  unfold setProp
  cases getOwnProp o k with
  | some w => simpa using deleteProp_replaceOwnProp_same o k v
  | none =>
    by_cases hp : k = "__proto__"
    · simp [hp]
    · simp only [if_neg hp]
      exact deleteProp_append_same o k v

theorem getOwnProp_setProp_inv {V : Type} (o : JsObj V) (k : String) (v r : V)
    (h : getOwnProp (setProp o k v) k = some r) : r = v := by
  by_cases hc : k ≠ "__proto__" ∨ (getOwnProp o k).isSome = true
  · rw [getOwnProp_setProp_same o k v hc] at h
    exact (Option.some.inj h).symm
  · simp only [not_or, not_not, Bool.not_eq_true, Option.not_isSome, Option.isNone_iff_eq_none]
      at hc
    unfold setProp at h
    rw [hc.2] at h
    simp only [if_pos hc.1] at h
    rw [hc.2] at h
    cases h

end ObjectLemmas

/-! ## Properties of the JSON round trip -/

section JsonLemmas

theorem ownKeys_deleteProp_replaceOwnProp {V : Type} (o : JsObj V) (k k2 : String) (v : V) :
    ownKeys (deleteProp (replaceOwnProp o k v) k2) = ownKeys (deleteProp o k2) := by
  induction o with
  | nil => rfl
  | cons p rest ih =>
    obtain ⟨a, b⟩ := p
    by_cases hak : a = k
    · by_cases hk2 : a = k2
      · have h3 : k = k2 := by rw [← hak, hk2]
        simp only [replaceOwnProp, if_pos hak, deleteProp, if_pos hk2, if_pos h3]
        exact ih
      · have h3 : ¬ k = k2 := fun e => hk2 (by rw [hak, e])
        simp only [replaceOwnProp, if_pos hak, deleteProp, if_neg hk2, if_neg h3]
        simp only [ownKeys, List.map_cons, hak] at ih ⊢
        rw [ih]
    · by_cases hk2 : a = k2
      · simp only [replaceOwnProp, if_neg hak, deleteProp, if_pos hk2]
        exact ih
      · simp only [replaceOwnProp, if_neg hak, deleteProp, if_neg hk2]
        simp only [ownKeys, List.map_cons] at ih ⊢
        rw [ih]

theorem getOwnProp_jsonRoundTripProps (o : JsObj JsVal) (k : String) :
    getOwnProp (jsonRoundTripProps o) k = (getOwnProp o k).map jsonRoundTrip := by
  induction o with
  | nil => rfl
  | cons p rest ih =>
    obtain ⟨a, b⟩ := p
    by_cases hak : a = k
    · simp only [jsonRoundTripProps, getOwnProp, if_pos hak, Option.map_some']
    · simp only [jsonRoundTripProps, getOwnProp, if_neg hak]
      exact ih

theorem ownKeys_jsonRoundTripProps (o : JsObj JsVal) :
    ownKeys (jsonRoundTripProps o) = ownKeys o := by
  induction o with
  | nil => rfl
  | cons p rest ih =>
    obtain ⟨a, b⟩ := p
    simp only [jsonRoundTripProps, ownKeys, List.map_cons] at ih ⊢
    rw [ih]

theorem jsonRoundTripProps_deleteProp (o : JsObj JsVal) (k : String) :
    jsonRoundTripProps (deleteProp o k) = deleteProp (jsonRoundTripProps o) k := by
  induction o with
  | nil => rfl
  | cons p rest ih =>
    obtain ⟨a, b⟩ := p
    by_cases hak : a = k
    · simp only [jsonRoundTripProps, deleteProp, if_pos hak]
      exact ih
    · simp only [jsonRoundTripProps, deleteProp, if_neg hak]
      rw [ih]

theorem jsonRoundTripProps_replaceOwnProp (o : JsObj JsVal) (k : String) (v : JsVal) :
    jsonRoundTripProps (replaceOwnProp o k v)
      = replaceOwnProp (jsonRoundTripProps o) k (jsonRoundTrip v) := by
  induction o with
  | nil => rfl
  | cons p rest ih =>
    obtain ⟨a, b⟩ := p
    by_cases hak : a = k
    · simp only [jsonRoundTripProps, replaceOwnProp, if_pos hak]
      rw [ih]
    · simp only [jsonRoundTripProps, replaceOwnProp, if_neg hak]
      rw [ih]

theorem jsonRoundTripProps_append (o : JsObj JsVal) (k : String) (v : JsVal) :
    jsonRoundTripProps (o ++ [(k, v)]) = jsonRoundTripProps o ++ [(k, jsonRoundTrip v)] := by
  induction o with
  | nil => rfl
  | cons p rest ih =>
    obtain ⟨a, b⟩ := p
    simp only [List.cons_append, jsonRoundTripProps]
    exact congrArg (List.cons (a, jsonRoundTrip b)) ih

theorem jsonRoundTripProps_setProp (o : JsObj JsVal) (k : String) (v : JsVal) :
    jsonRoundTripProps (setProp o k v) = setProp (jsonRoundTripProps o) k (jsonRoundTrip v) := by
  unfold setProp
  rw [getOwnProp_jsonRoundTripProps]
  cases getOwnProp o k with
  | some w => simpa using jsonRoundTripProps_replaceOwnProp o k v
  | none =>
    by_cases hp : k = "__proto__"
    · simp [hp]
    · simp only [Option.map_none', if_neg hp]
      exact jsonRoundTripProps_append o k v

mutual
theorem jsonRoundTrip_idem : ∀ v : JsVal, jsonRoundTrip (jsonRoundTrip v) = jsonRoundTrip v
  | .null => rfl
  | .bool _ => rfl
  | .num _ => rfl
  | .infinity _ => rfl
  | .str _ => rfl
  | .arr items => by
    simp only [jsonRoundTrip]
    rw [jsonRoundTripList_idem items]
  | .obj props => by
    simp only [jsonRoundTrip]
    rw [jsonRoundTripProps_idem props]
theorem jsonRoundTripList_idem :
    ∀ l : List JsVal, jsonRoundTripList (jsonRoundTripList l) = jsonRoundTripList l
  | [] => rfl
  | v :: rest => by
    simp only [jsonRoundTripList]
    rw [jsonRoundTrip_idem v, jsonRoundTripList_idem rest]
theorem jsonRoundTripProps_idem :
    ∀ l : List (String × JsVal), jsonRoundTripProps (jsonRoundTripProps l) = jsonRoundTripProps l
  | [] => rfl
  | (k, v) :: rest => by
    simp only [jsonRoundTripProps]
    rw [jsonRoundTrip_idem v, jsonRoundTripProps_idem rest]
end

theorem truthy_jsonRoundTrip (v : JsVal) (h : ∀ b, v ≠ .infinity b) :
    (jsonRoundTrip v).truthy = v.truthy := by
  cases v with
  | infinity b => exact absurd rfl (h b)
  | null => rfl
  | bool _ => rfl
  | num _ => rfl
  | str _ => rfl
  | arr _ => rfl
  | obj _ => rfl

theorem jsonRoundTrip_eq_obj (e : JsVal) (props : List (String × JsVal))
    (h : jsonRoundTrip e = .obj props) :
    ∃ stored, e = .obj stored ∧ jsonRoundTripProps stored = props := by
  cases e with
  | obj stored =>
    simp only [jsonRoundTrip, JsVal.obj.injEq] at h
    exact ⟨stored, rfl, h⟩
  | null => simp [jsonRoundTrip] at h
  | bool _ => simp [jsonRoundTrip] at h
  | num _ => simp [jsonRoundTrip] at h
  | infinity _ => simp [jsonRoundTrip] at h
  | str _ => simp [jsonRoundTrip] at h
  | arr _ => simp [jsonRoundTrip] at h

theorem jsonRoundTrip_eq_num (e : JsVal) (q : ℚ) (h : jsonRoundTrip e = .num q) :
    e = .num q := by
  cases e with
  | num r =>
    simpa [jsonRoundTrip] using h
  | null => simp [jsonRoundTrip] at h
  | bool _ => simp [jsonRoundTrip] at h
  | obj _ => simp [jsonRoundTrip] at h
  | infinity _ => simp [jsonRoundTrip] at h
  | str _ => simp [jsonRoundTrip] at h
  | arr _ => simp [jsonRoundTrip] at h

end JsonLemmas
/-! ## Properties of the ledger helpers -/

section LedgerLemmas

theorem getProp_valuePerClick (proto : ProtoState) (o : JsObj JsVal) :
    getProp proto o "valuePerClick" =
      match getOwnProp o "valuePerClick" with
      | some v => .own v
      | none => .undefined := by
  unfold getProp
  cases getOwnProp o "valuePerClick" with
  | some v => rfl
  | none =>
    have h : ¬ "valuePerClick" ∈ objectPrototypeKeys := by decide
    have h1 : ¬ "valuePerClick" = "count" := by decide
    have h2 : ¬ "valuePerClick" = "lastClickedAt" := by decide
    cases proto with
    | none => simp only [if_neg h]
    | some ts => simp only [if_neg h, if_neg h1, if_neg h2]

/-- The value that `readData` leaves under `valuePerClick`. -/
theorem getOwnProp_readData_valuePerClick (proto : ProtoState) (file : JsObj JsVal) :
    getOwnProp (readData proto file) "valuePerClick" =
      some (match getOwnProp file "valuePerClick" with
        | some x => if x.truthy then x else .num oneHalf
        | none => .num oneHalf) := by
  unfold readData
  rw [getProp_valuePerClick]
  cases h : getOwnProp file "valuePerClick" with
  | none =>
    simp only [truthyVal, Bool.not_false, if_true]
    exact getOwnProp_setProp_same file _ _ (Or.inl (by decide))
  | some x =>
    by_cases hx : x.truthy = true
    · simp [truthyVal, hx, h]
    · simp only [Bool.not_eq_true] at hx
      simp only [truthyVal, hx, Bool.not_false, if_true]
      exact getOwnProp_setProp_same file _ _ (Or.inl (by decide))

theorem readData_truthy (proto : ProtoState) (file : JsObj JsVal) :
    ∃ w, getOwnProp (readData proto file) "valuePerClick" = some w ∧ w.truthy = true := by
  refine ⟨_, getOwnProp_readData_valuePerClick proto file, ?_⟩
  cases getOwnProp file "valuePerClick" with
  | none => decide
  | some x =>
    by_cases hx : x.truthy = true
    · simp [hx]
    · simp only [hx]
      exact (by decide : (JsVal.num oneHalf).truthy = true)

theorem readData_of_truthy (proto : ProtoState) (file : JsObj JsVal) (w : JsVal)
    (h : getOwnProp file "valuePerClick" = some w) (hw : w.truthy = true) :
    readData proto file = file := by
  unfold readData
  rw [getProp_valuePerClick, h]
  simp [truthyVal, hw]

theorem getOwnProp_readData_other (proto : ProtoState) (file : JsObj JsVal) (k : String)
    (h : k ≠ "valuePerClick") :
    getOwnProp (readData proto file) k = getOwnProp file k := by
  unfold readData
  split
  · exact getOwnProp_setProp_other file _ k _ h
  · rfl

theorem deleteProp_readData (proto : ProtoState) (file : JsObj JsVal) :
    deleteProp (readData proto file) "valuePerClick" = deleteProp file "valuePerClick" := by
  unfold readData
  split
  · exact deleteProp_setProp_same file _ _
  · rfl

theorem listCounters_eq (proto : ProtoState) (file : JsObj JsVal) :
    listCounters proto file = jsonRoundTripProps (deleteProp file "valuePerClick") := by
  unfold listCounters
  rw [deleteProp_readData]

theorem getOwnProp_listCounters_other (proto : ProtoState) (file : JsObj JsVal) (k : String)
    (h : k ≠ "valuePerClick") :
    getOwnProp (listCounters proto file) k = (getOwnProp file k).map jsonRoundTrip := by
  rw [listCounters_eq, getOwnProp_jsonRoundTripProps, getOwnProp_deleteProp_other file _ k h]

theorem getOwnProp_listCounters_valuePerClick (proto : ProtoState) (file : JsObj JsVal) :
    getOwnProp (listCounters proto file) "valuePerClick" = none := by
  rw [listCounters_eq, getOwnProp_jsonRoundTripProps, getOwnProp_deleteProp_same]
  rfl

/-- The answer of `GET /api/config` in terms of the stored entry. -/
theorem getConfig_eq (proto : ProtoState) (file : JsObj JsVal) :
    getConfig proto file =
      .own (jsonRoundTrip (match getOwnProp file "valuePerClick" with
        | some x => if x.truthy then x else .num oneHalf
        | none => .num oneHalf)) := by
  unfold getConfig
  rw [getProp_valuePerClick, getOwnProp_readData_valuePerClick]

/-- The listing of a written file, in terms of the data written. -/
theorem listCounters_writeData (proto : ProtoState) (data : JsObj JsVal) :
    listCounters proto (writeData data) = jsonRoundTripProps (deleteProp data "valuePerClick") := by
  rw [listCounters_eq]
  unfold writeData
  rw [← jsonRoundTripProps_deleteProp, jsonRoundTripProps_idem]

/-- A file written from `readData` output whose `valuePerClick` was not touched
answers `GET /api/config` as before, when the stored entry is not an infinity. -/
theorem getConfig_of_written (proto proto2 : ProtoState) (file data : JsObj JsVal)
    (h : getOwnProp data "valuePerClick" = getOwnProp (readData proto file) "valuePerClick")
    (hfin : ∀ b, getOwnProp file "valuePerClick" ≠ some (.infinity b)) :
    getConfig proto2 (writeData data) = getConfig proto file := by
  obtain ⟨w, hw, ht⟩ := readData_truthy proto file
  have h1 := getOwnProp_readData_valuePerClick proto file
  rw [hw] at h1
  have hwv := Option.some.inj h1
  have hninf : ∀ b, w ≠ .infinity b := by
    intro b e
    rw [e] at hwv
    cases hs : getOwnProp file "valuePerClick" with
    | none =>
      rw [hs] at hwv
      cases hwv
    | some x =>
      rw [hs] at hwv
      by_cases hx : x.truthy = true
      · simp only [hx, if_true] at hwv
        exact hfin b (by rw [hs, ← hwv])
      · simp only [hx] at hwv
        cases hwv
  rw [getConfig_eq proto2 (writeData data), getConfig_eq proto file]
  unfold writeData
  rw [getOwnProp_jsonRoundTripProps, h, hw, ← hwv]
  simp only [Option.map_some', truthy_jsonRoundTrip w hninf, ht, if_true, jsonRoundTrip_idem]

theorem withAuth_next (st : Store) (authorization : Option String) (user : Lookup String)
    (handler : JsObj JsVal → Outcome × JsObj JsVal)
    (hauth : authMiddleware st.proto st.users authorization = .next user) :
    withAuth st authorization handler
      = ((handler st.data).1, { st with data := (handler st.data).2 }) := by
  unfold withAuth
  rw [hauth]

theorem withAuth_rejected (st : Store) (authorization : Option String) (r : Response)
    (handler : JsObj JsVal → Outcome × JsObj JsVal)
    (hauth : authMiddleware st.proto st.users authorization = .rejected r) :
    withAuth st authorization handler = (.responded r, st) := by
  unfold withAuth
  rw [hauth]

end LedgerLemmas
/-! ## Properties of add and increment -/

section Increment

theorem doubleSucc_of_lt (c : ℕ) (hc : c < 2 ^ 53) : doubleSucc c = c + 1 := by
  unfold doubleSucc
  rw [if_pos hc]

theorem countPlusOne_nat (engine : Engine) (c : ℕ) (hc : c < 2 ^ 53) :
    countPlusOne engine (some (.num (c : ℚ))) = some (.num ((c + 1 : ℕ) : ℚ)) := by
  unfold countPlusOne
  have h : (c : ℚ).den = 1 ∧ 0 ≤ (c : ℚ).num := by
    rw [Rat.den_natCast, Rat.num_natCast]
    exact ⟨rfl, Int.ofNat_nonneg c⟩
  show (if (c : ℚ).den = 1 ∧ 0 ≤ (c : ℚ).num
      then some (JsVal.num ((doubleSucc (c : ℚ).num.toNat : ℕ) : ℚ))
      else engine.countPlusOne (.num (c : ℚ))) = _
  rw [if_pos h, Rat.num_natCast, Int.toNat_ofNat, doubleSucc_of_lt c hc]

theorem incrementHandler_record (engine : Engine) (proto : ProtoState) (file : JsObj JsVal)
    (name now : String) (stored : List (String × JsVal)) (c : ℕ)
    (h : getOwnProp (readData proto file) name = some (.obj stored))
    (hcount : getOwnProp stored "count" = some (.num (c : ℚ))) (hc : c < 2 ^ 53) :
    incrementHandler engine proto file name now =
      (.responded ⟨200, .message "Zähler erhöht"⟩,
        writeData (setProp (readData proto file) name
          (.obj (setProp (setProp stored "count" (.num ((c + 1 : ℕ) : ℚ)))
            "lastClickedAt" (.str now)))),
        proto) := by
  unfold incrementHandler
  simp only [getProp, h, hcount, countPlusOne_nat engine c hc]

/-- What the listing reports for a name is the round trip of the stored entry. -/
theorem stored_of_listed (proto : ProtoState) (file : JsObj JsVal) (name : String)
    (props : List (String × JsVal)) (c : ℕ)
    (h : getOwnProp (listCounters proto file) name = some (.obj props))
    (hcount : getOwnProp props "count" = some (.num (c : ℚ))) :
    name ≠ "valuePerClick" ∧
    ∃ stored, getOwnProp (readData proto file) name = some (.obj stored) ∧
      jsonRoundTripProps stored = props ∧
      getOwnProp stored "count" = some (.num (c : ℚ)) := by
  have hne : name ≠ "valuePerClick" := by
    intro e
    rw [e, getOwnProp_listCounters_valuePerClick] at h
    cases h
  refine ⟨hne, ?_⟩
  rw [getOwnProp_listCounters_other proto file name hne] at h
  cases he : getOwnProp file name with
  | none =>
    rw [he] at h
    cases h
  | some e =>
    rw [he] at h
    simp only [Option.map_some', Option.some.injEq] at h
    obtain ⟨stored, hs, hp⟩ := jsonRoundTrip_eq_obj e props h
    refine ⟨stored, ?_, hp, ?_⟩
    · rw [getOwnProp_readData_other proto file name hne, he, hs]
    · rw [← hp, getOwnProp_jsonRoundTripProps] at hcount
      cases hw : getOwnProp stored "count" with
      | none =>
        rw [hw] at hcount
        cases hcount
      | some w =>
        rw [hw] at hcount
        simp only [Option.map_some', Option.some.injEq] at hcount
        rw [jsonRoundTrip_eq_num w _ hcount]

theorem incrementHandler_spec (engine : Engine) (proto : ProtoState) (file : JsObj JsVal)
    (name now : String) (props : List (String × JsVal)) (c : ℕ)
    (h : getOwnProp (listCounters proto file) name = some (.obj props))
    (hcount : getOwnProp props "count" = some (.num (c : ℚ))) (hc : c < 2 ^ 53) :
    (incrementHandler engine proto file name now).1.status? = some 200 ∧
    (incrementHandler engine proto file name now).2.2 = proto ∧
    getOwnProp (listCounters proto (incrementHandler engine proto file name now).2.1) name
      = some (.obj (setProp (setProp props "count" (.num ((c + 1 : ℕ) : ℚ)))
          "lastClickedAt" (.str now))) ∧
    ownKeys (listCounters proto (incrementHandler engine proto file name now).2.1)
      = ownKeys (listCounters proto file) ∧
    (∀ other, other ≠ name →
      getOwnProp (listCounters proto (incrementHandler engine proto file name now).2.1) other
        = getOwnProp (listCounters proto file) other) ∧
    ((∀ b, getOwnProp file "valuePerClick" ≠ some (.infinity b)) →
      getConfig proto (incrementHandler engine proto file name now).2.1 = getConfig proto file) := by
  obtain ⟨hne, stored, hown, hprops, hstored⟩ := stored_of_listed proto file name props c h hcount
  have hv : "valuePerClick" ≠ name := fun e => hne e.symm
  rw [incrementHandler_record engine proto file name now stored c hown hstored hc]
  refine ⟨rfl, rfl, ?_, ?_, ?_, ?_⟩
  · rw [listCounters_writeData, getOwnProp_jsonRoundTripProps,
      getOwnProp_deleteProp_other _ _ name hne,
      getOwnProp_setProp_same _ _ _ (Or.inr (by rw [hown]; rfl))]
    simp only [Option.map_some', jsonRoundTrip, jsonRoundTripProps_setProp, hprops]
  · have hs : setProp (readData proto file) name
          (.obj (setProp (setProp stored "count" (.num ((c + 1 : ℕ) : ℚ)))
            "lastClickedAt" (.str now)))
        = replaceOwnProp (readData proto file) name
          (.obj (setProp (setProp stored "count" (.num ((c + 1 : ℕ) : ℚ)))
            "lastClickedAt" (.str now))) := by
      unfold setProp
      rw [hown]
    rw [listCounters_writeData, hs, ownKeys_jsonRoundTripProps,
      ownKeys_deleteProp_replaceOwnProp]
    unfold listCounters
    rw [ownKeys_jsonRoundTripProps]
  · intro other ho
    rw [listCounters_writeData, getOwnProp_jsonRoundTripProps]
    by_cases hov : other = "valuePerClick"
    · rw [hov, getOwnProp_deleteProp_same, getOwnProp_listCounters_valuePerClick]
      rfl
    · rw [getOwnProp_deleteProp_other _ _ other hov, getOwnProp_setProp_other _ _ other _ ho,
        getOwnProp_readData_other proto file other hov,
        getOwnProp_listCounters_other proto file other hov]
  · intro hfin
    exact getConfig_of_written proto proto file _
      (getOwnProp_setProp_other _ _ _ _ hv) hfin

theorem addHandler_created (proto : ProtoState) (file : JsObj JsVal) (name : String)
    (h : (addHandler proto file name).1.status? = some 201) :
    name ≠ "valuePerClick" ∧
    (addHandler proto file name).2
      = writeData (setProp (readData proto file) name (.counter 0 none)) ∧
    getOwnProp (addHandler proto file name).2 name = some (.counter 0 none) := by
  unfold addHandler at h ⊢
  by_cases ht : truthyVal (getProp proto (readData proto file) name) = true
  · simp [ht, Outcome.status?] at h
  · simp only [Bool.not_eq_true] at ht
    simp only [ht, Bool.not_false, if_true]
    refine ⟨?_, trivial, ?_⟩
    · intro e
      obtain ⟨w, hw, hwt⟩ := readData_truthy proto file
      rw [e, getProp_valuePerClick, hw] at ht
      simp [truthyVal, hwt] at ht
    · unfold writeData
      rw [getOwnProp_jsonRoundTripProps]
      have hset : getOwnProp (setProp (readData proto file) name (.counter 0 none)) name
          = some (.counter 0 none) := by
        apply getOwnProp_setProp_same
        cases ho : getOwnProp (readData proto file) name with
        | some x => exact Or.inr rfl
        | none =>
          left
          intro e
          have hp : getProp proto (readData proto file) name = .inherited "__proto__" := by
            unfold getProp
            rw [ho, e]
            rfl
          rw [hp] at ht
          simp [truthyVal] at ht
      rw [hset]
      rfl

end Increment
/-! ## Behaviour on ordinary names, with `Object.prototype` as at process start -/

section OrdinaryNames

/-- Gate of `authMiddleware` away from inherited names: a missing or empty
header, or a token that is neither a key of the session table nor a member of
`Object.prototype`, is answered 401 and no authenticated route changes a file. -/
theorem authMiddleware_rejects_unknown (st : Store) (authorization : Option String)
    (hproto : st.proto = pristine)
    (h : ∀ token, authorization = some token → token ≠ "" →
      (st.users.sessions.bind (fun s => getOwnProp s token)) = none ∧
      token ∉ objectPrototypeKeys)
    (handler : JsObj JsVal → Outcome × JsObj JsVal) :
    authMiddleware st.proto st.users authorization = .rejected notLoggedIn ∧
    withAuth st authorization handler = (.responded notLoggedIn, st) := by
  have h1 : authMiddleware st.proto st.users authorization = .rejected notLoggedIn := by
    unfold authMiddleware
    cases authorization with
    | none => rfl
    | some token =>
      by_cases ht : token = ""
      · simp [ht]
      · obtain ⟨hown, hinh⟩ := h token rfl ht
        have hl : getPropOpt st.proto st.users.sessions token = .undefined := by
          rw [hproto]
          unfold getPropOpt
          cases hs : st.users.sessions with
          | none => rfl
          | some s =>
            rw [hs] at hown
            simp only [Option.bind] at hown
            simp only [getProp, hown, if_neg hinh, pristine]
        simp [hl, truthyStr]
  exact ⟨h1, withAuth_rejected st authorization _ handler h1⟩

/-- Duplicate registration: a username that is a key of the user table is
answered 400 and `users.json` is not written. -/
theorem register_duplicate_rejected (bc : Bcrypt) (proto : ProtoState) (usersData : UsersData)
    (username password now : String) (record : UserRec)
    (h : (usersData.users.bind (fun u => getOwnProp u username)) = some record) :
    register bc proto usersData username password now
      = (.responded ⟨400, .message "Benutzer existiert bereits"⟩, usersData) := by
  unfold register
  cases hu : usersData.users with
  | none => rw [hu] at h; cases h
  | some tbl =>
    rw [hu] at h
    simp only [Option.bind] at h
    simp [getPropOpt, getProp, h, truthyUser]

/-- Registration of a username that is new and not a member of
`Object.prototype` stores its record. -/
theorem register_fresh (bc : Bcrypt) (usersData : UsersData) (username password now : String)
    (hfresh : (usersData.users.bind (fun u => getOwnProp u username)) = none)
    (hinh : username ∉ objectPrototypeKeys) :
    register bc pristine usersData username password now
      = (.responded ⟨201, .message "Benutzer registriert"⟩,
          { users := some (setProp (usersData.users.getD []) username ⟨bc.hash password, now⟩),
            sessions := some (usersData.sessions.getD []) }) ∧
    getOwnProp (setProp (usersData.users.getD []) username ⟨bc.hash password, now⟩) username
      = some ⟨bc.hash password, now⟩ := by
  have hproto : username ≠ "__proto__" := by
    intro e
    apply hinh
    rw [e]
    decide
  have hl : getPropOpt pristine usersData.users username = .undefined := by
    unfold getPropOpt
    cases hu : usersData.users with
    | none => rfl
    | some tbl =>
      rw [hu] at hfresh
      simp only [Option.bind] at hfresh
      simp only [getProp, hfresh, if_neg hinh, pristine]
  refine ⟨?_, getOwnProp_setProp_same _ _ _ (Or.inl hproto)⟩
  unfold register
  simp [hl, truthyUser]

/-- Register, login and authenticate for a username that is not empty, not a
key of the user table and not a member of `Object.prototype`. -/
theorem register_login_roundtrip (bc : Bcrypt) (usersData : UsersData)
    (username password now token : String)
    (hbc : bc.compare password (bc.hash password) = true)
    (hne : username ≠ "")
    (hfresh : (usersData.users.bind (fun u => getOwnProp u username)) = none)
    (hinh : username ∉ objectPrototypeKeys)
    (htok : uuidFormat token = true) :
    (register bc pristine usersData username password now).1.status? = some 201 ∧
    (login bc pristine (register bc pristine usersData username password now).2
      username password token).1 = .responded ⟨200, .login token username⟩ ∧
    authMiddleware pristine
      (login bc pristine (register bc pristine usersData username password now).2
        username password token).2
      (some token) = .next (.own username) := by
  have htok1 : token ≠ "" := by
    intro e
    rw [e] at htok
    revert htok
    decide
  have htok2 : token ≠ "__proto__" := by
    intro e
    rw [e] at htok
    revert htok
    decide
  obtain ⟨hreg, hown⟩ := register_fresh bc usersData username password now hfresh hinh
  have hsess : getOwnProp (setProp (usersData.sessions.getD []) token username) token
      = some username := getOwnProp_setProp_same _ _ _ (Or.inl htok2)
  rw [hreg]
  refine ⟨rfl, ?_, ?_⟩
  · simp [login, getPropOpt, getProp, hown, hbc]
  · simp [login, getPropOpt, getProp, hown, hbc, authMiddleware, hsess, truthyStr, htok1, hne]

/-- Second registration of a username that the first registration created:
for a username that is new and not a member of `Object.prototype`, the first
registration is answered 201, the second one 400 without a write, and then
login with the second password is answered 401 and login with the first 200. -/
theorem reregister_fresh_username (bc : Bcrypt) (usersData : UsersData)
    (u p1 p2 t1 t2 token : String)
    (hp1 : bc.compare p1 (bc.hash p1) = true)
    (hp2 : bc.compare p2 (bc.hash p1) = false)
    (hfresh : (usersData.users.bind (fun t => getOwnProp t u)) = none)
    (hinh : u ∉ objectPrototypeKeys) :
    (register bc pristine usersData u p1 t1).1.status? = some 201 ∧
    register bc pristine (register bc pristine usersData u p1 t1).2 u p2 t2
      = (.responded ⟨400, .message "Benutzer existiert bereits"⟩,
          (register bc pristine usersData u p1 t1).2) ∧
    (login bc pristine
      (register bc pristine (register bc pristine usersData u p1 t1).2 u p2 t2).2
      u p2 token).1.status? = some 401 ∧
    (login bc pristine
      (register bc pristine (register bc pristine usersData u p1 t1).2 u p2 t2).2
      u p1 token).1 = .responded ⟨200, .login token u⟩ := by
  obtain ⟨hreg, hown⟩ := register_fresh bc usersData u p1 t1 hfresh hinh
  have hdup := register_duplicate_rejected bc pristine (register bc pristine usersData u p1 t1).2
    u p2 t2 ⟨bc.hash p1, t1⟩ (by rw [hreg]; exact hown)
  rw [hdup]
  refine ⟨by rw [hreg]; rfl, rfl, ?_, ?_⟩
  · rw [hreg]
    simp [login, getPropOpt, getProp, hown, hp2, Outcome.status?]
  · rw [hreg]
    simp [login, getPropOpt, getProp, hown, hp1]

/-- Logout of a token that is not a member of `Object.prototype`: answered
200, the token is rejected afterwards, and every other token reads as before. -/
theorem logout_revokes_token (usersData : UsersData) (token : String)
    (hinh : token ∉ objectPrototypeKeys) :
    (logout pristine usersData (some token)).1.status? = some 200 ∧
    authMiddleware pristine (logout pristine usersData (some token)).2 (some token)
      = .rejected notLoggedIn ∧
    (∀ other, other ≠ token →
      getPropOpt pristine (logout pristine usersData (some token)).2.sessions other
        = getPropOpt pristine usersData.sessions other) := by
  unfold logout
  by_cases hc : (decide (token ≠ "") &&
      truthyStr (getPropOpt pristine usersData.sessions token)) = true
  · simp only [hc, if_true]
    refine ⟨rfl, ?_, ?_⟩
    · unfold authMiddleware
      cases hs : usersData.sessions with
      | none => simp [getPropOpt, truthyStr]
      | some s =>
        simp [getPropOpt, getProp, getOwnProp_deleteProp_same, hinh, truthyStr, pristine]
    · intro other ho
      cases hs : usersData.sessions with
      | none => rfl
      | some s =>
        simp [getPropOpt, getProp, getOwnProp_deleteProp_other s token other ho]
  · simp only [hc]
    refine ⟨rfl, ?_, fun _ _ => rfl⟩
    unfold authMiddleware
    simp only [Bool.and_eq_true, decide_eq_true_eq, not_and, Bool.not_eq_true] at hc
    by_cases ht : token = ""
    · simp [ht]
    · simp [hc ht]

/-- Names that read as `undefined` from the parsed data (no own property, not
a member of `Object.prototype`): increment and delete are answered 404 and the
file is not written. -/
theorem unknown_name_not_found (engine : Engine) (proto : ProtoState) (file : JsObj JsVal)
    (name now : String) (h : getProp proto (readData proto file) name = .undefined) :
    incrementHandler engine proto file name now
      = (.responded ⟨404, .message "Name nicht gefunden"⟩, file, proto) ∧
    deleteHandler proto file name
      = (.responded ⟨404, .message "Name nicht gefunden"⟩, file) := by
  unfold incrementHandler deleteHandler
  simp [h, truthyVal]

/-- Delete of a name other than `valuePerClick`: `GET /config` answers as
before (for a stored value within the double range), every other counter is
kept and the name is gone from `GET /names`. -/
theorem deleteHandler_keeps_config (proto : ProtoState) (file : JsObj JsVal) (name : String)
    (hne : name ≠ "valuePerClick")
    (hfin : ∀ b, getOwnProp file "valuePerClick" ≠ some (.infinity b)) :
    getConfig proto (deleteHandler proto file name).2 = getConfig proto file ∧
    (∀ other, other ≠ name →
      getOwnProp (listCounters proto (deleteHandler proto file name).2) other
        = getOwnProp (listCounters proto file) other) ∧
    ((deleteHandler proto file name).1.status? = some 200 →
      getOwnProp (listCounters proto (deleteHandler proto file name).2) name = none) := by
  have hv : "valuePerClick" ≠ name := fun e => hne e.symm
  unfold deleteHandler
  by_cases ht : truthyVal (getProp proto (readData proto file) name) = true
  · simp only [ht, if_true]
    refine ⟨?_, ?_, ?_⟩
    · exact getConfig_of_written proto proto file _
        (getOwnProp_deleteProp_other _ _ _ hv) hfin
    · intro other ho
      rw [listCounters_writeData, getOwnProp_jsonRoundTripProps]
      by_cases hov : other = "valuePerClick"
      · rw [hov, getOwnProp_deleteProp_same, getOwnProp_listCounters_valuePerClick]
        rfl
      · rw [getOwnProp_deleteProp_other _ _ other hov, getOwnProp_deleteProp_other _ _ other ho,
          getOwnProp_readData_other proto file other hov,
          getOwnProp_listCounters_other proto file other hov]
    · intro _
      rw [listCounters_writeData, getOwnProp_jsonRoundTripProps,
        getOwnProp_deleteProp_other _ _ name hne, getOwnProp_deleteProp_same]
      rfl
  · simp only [ht]
    refine ⟨rfl, fun _ _ => rfl, ?_⟩
    intro h
    simp [Outcome.status?] at h

end OrdinaryNames
/-! ## Reset with `Object.prototype` as at process start -/

section Reset

theorem mem_replaceOwnProp {V : Type} (o : JsObj V) (k : String) (v : V) (p : String × V)
    (h : p ∈ replaceOwnProp o k v) : p ∈ o ∨ p = (k, v) := by
  induction o with
  | nil => simp [replaceOwnProp] at h
  | cons q rest ih =>
    obtain ⟨a, b⟩ := q
    by_cases hak : a = k
    · simp only [replaceOwnProp, if_pos hak, List.mem_cons] at h
      rcases h with h | h
      · exact Or.inr h
      · rcases ih h with h2 | h2
        · exact Or.inl (List.mem_cons_of_mem _ h2)
        · exact Or.inr h2
    · simp only [replaceOwnProp, if_neg hak, List.mem_cons] at h
      rcases h with h | h
      · exact Or.inl (by rw [h]; exact List.mem_cons_self _ _)
      · rcases ih h with h2 | h2
        · exact Or.inl (List.mem_cons_of_mem _ h2)
        · exact Or.inr h2

theorem mem_setProp {V : Type} (o : JsObj V) (k : String) (v : V) (p : String × V)
    (h : p ∈ setProp o k v) : p ∈ o ∨ p = (k, v) := by
  unfold setProp at h
  cases hk : getOwnProp o k with
  | some w =>
    rw [hk] at h
    exact mem_replaceOwnProp o k v p h
  | none =>
    rw [hk] at h
    by_cases hp : k = "__proto__"
    · simp only [if_pos hp] at h
      exact Or.inl h
    · simp only [if_neg hp, List.mem_append, List.mem_singleton] at h
      exact h

theorem mem_readData (proto : ProtoState) (file : JsObj JsVal) (p : String × JsVal)
    (h : p ∈ readData proto file) : p ∈ file ∨ p.1 = "valuePerClick" := by
  unfold readData at h
  split at h
  · rcases mem_setProp _ _ _ _ h with h2 | h2
    · exact Or.inl h2
    · exact Or.inr (by rw [h2])
  · exact Or.inl h

theorem resetEntry_counter (k : String) (c : ℕ) (l : Option String)
    (hk : k ≠ "valuePerClick") :
    resetEntry (k, JsVal.counter c l) = some (k, JsVal.counter 0 none) := by
  unfold resetEntry
  rw [if_pos hk]
  have h1 : ¬ "lastClickedAt" = "count" := by decide
  have h2 : ¬ "count" = "lastClickedAt" := by decide
  simp [JsVal.counter, setProp, getOwnProp, replaceOwnProp, h1, h2]

theorem resetLoop_spec (d : JsObj JsVal)
    (hrec : ∀ p ∈ d, p.1 ≠ "valuePerClick" → ∃ c l, p.2 = JsVal.counter c l) :
    ∃ r, resetLoop d = some r ∧
      ownKeys (deleteProp r "valuePerClick") = ownKeys (deleteProp d "valuePerClick") ∧
      getOwnProp r "valuePerClick" = getOwnProp d "valuePerClick" ∧
      (∀ p ∈ deleteProp r "valuePerClick", p.2 = JsVal.counter 0 none) := by
  induction d with
  | nil => exact ⟨[], rfl, rfl, rfl, by simp [deleteProp]⟩
  | cons q rest ih =>
    obtain ⟨a, b⟩ := q
    obtain ⟨r, hr, hk, hv, hz⟩ := ih (fun p hp => hrec p (List.mem_cons_of_mem _ hp))
    by_cases hav : a = "valuePerClick"
    · refine ⟨(a, b) :: r, ?_, ?_, ?_, ?_⟩
      · simp [resetLoop, resetEntry, hav, hr]
      · simp only [deleteProp, if_pos hav]
        exact hk
      · simp only [getOwnProp, if_pos hav]
      · simp only [deleteProp, if_pos hav]
        exact hz
    · obtain ⟨c, l, hb⟩ := hrec (a, b) (List.mem_cons_self _ _) hav
      simp only at hb
      refine ⟨(a, .counter 0 none) :: r, ?_, ?_, ?_, ?_⟩
      · simp only [resetLoop, hb, resetEntry_counter a c l hav, hr, Option.map_some']
      · simp only [deleteProp, if_neg hav, ownKeys, List.map_cons]
        simp only [ownKeys] at hk
        rw [hk]
      · simp only [getOwnProp, if_neg hav]
        exact hv
      · simp only [deleteProp, if_neg hav, List.mem_cons]
        intro p hp
        rcases hp with hp | hp
        · rw [hp]
        · exact hz p hp

theorem getOwnProp_of_forall {V : Type} (o : JsObj V) (x : V) (name : String)
    (hall : ∀ p ∈ o, p.2 = x) (hmem : name ∈ ownKeys o) : getOwnProp o name = some x := by
  induction o with
  | nil => simp [ownKeys] at hmem
  | cons q rest ih =>
    obtain ⟨a, b⟩ := q
    by_cases han : a = name
    · have hb : b = x := hall (a, b) (List.mem_cons_self _ _)
      simp only [getOwnProp, if_pos han, hb]
    · simp only [getOwnProp, if_neg han]
      apply ih (fun p hp => hall p (List.mem_cons_of_mem _ hp))
      simp only [ownKeys, List.map_cons, List.mem_cons] at hmem
      rcases hmem with h | h
      · exact absurd h.symm han
      · exact h

theorem jsonRoundTripProps_of_forall (o : JsObj JsVal) (x : JsVal)
    (hx : jsonRoundTrip x = x) (hall : ∀ p ∈ o, p.2 = x) : jsonRoundTripProps o = o := by
  induction o with
  | nil => rfl
  | cons q rest ih =>
    obtain ⟨a, b⟩ := q
    have hb : b = x := hall (a, b) (List.mem_cons_self _ _)
    simp only [jsonRoundTripProps]
    rw [ih (fun p hp => hall p (List.mem_cons_of_mem _ hp)), hb, hx]

/-- Reset on a server whose `Object.prototype` is as at process start: for a
ledger whose entries other than `valuePerClick` are counter records, the
handler answers 200; afterwards `GET /names` lists the same names, each with
count 0 and `lastClickedAt` null, and `GET /config` answers as before (for a
stored value within the double range). -/
theorem resetHandler_pristine (file : JsObj JsVal)
    (hrec : ∀ k v, (k, v) ∈ file → k ≠ "valuePerClick" → ∃ c l, v = JsVal.counter c l) :
    (resetHandler pristine file).1.status? = some 200 ∧
    ownKeys (listCounters pristine (resetHandler pristine file).2)
      = ownKeys (listCounters pristine file) ∧
    (∀ name ∈ ownKeys (listCounters pristine (resetHandler pristine file).2),
      getOwnProp (listCounters pristine (resetHandler pristine file).2) name
        = some (.counter 0 none)) ∧
    ((∀ b, getOwnProp file "valuePerClick" ≠ some (.infinity b)) →
      getConfig pristine (resetHandler pristine file).2 = getConfig pristine file) := by
  have hrec2 : ∀ p ∈ readData pristine file, p.1 ≠ "valuePerClick" →
      ∃ c l, p.2 = JsVal.counter c l := by
    intro p hp hne
    rcases mem_readData pristine file p hp with h | h
    · exact hrec p.1 p.2 h hne
    · exact absurd h hne
  obtain ⟨r, hr, hk, hv, hz⟩ := resetLoop_spec (readData pristine file) hrec2
  have hnorm : jsonRoundTripProps (deleteProp r "valuePerClick") = deleteProp r "valuePerClick" :=
    jsonRoundTripProps_of_forall _ _ rfl hz
  unfold resetHandler
  rw [hr]
  simp only [visitsInherited, pristine, Bool.false_eq_true, if_false]
  refine ⟨rfl, ?_, ?_, ?_⟩
  · rw [listCounters_writeData, hnorm, hk]
    unfold listCounters
    rw [ownKeys_jsonRoundTripProps]
    rfl
  · intro name hmem
    rw [listCounters_writeData, hnorm] at hmem ⊢
    exact getOwnProp_of_forall _ _ name hz hmem
  · intro hfin
    exact getConfig_of_written none none file r hv hfin

end Reset
/-! ## The claims -/

/-- Claim C1 fails on the code: the string `constructor` is not a key of the
session table of the sample store, yet `authMiddleware` calls `next()` for it
(the table inherits a member of that name), and `DELETE /delete/alice` sent
with it runs and removes the counter. -/
theorem authMiddleware_accepts_inherited_name :
    getPropOpt pristine sampleStore.users.sessions "T" = .own "bilal" ∧
    (sampleStore.users.sessions.bind (fun s => getOwnProp s "constructor")) = none ∧
    authMiddleware pristine sampleStore.users (some "constructor")
      = .next (.inherited "constructor") ∧
    (deleteName sampleStore (some "constructor") "alice").1.status? = some 200 ∧
    getOwnProp (listCounters pristine sampleStore.data) "alice"
      = some (.counter 3 (some "2024-01-02T00:00:00.000Z")) ∧
    getOwnProp
      (listCounters pristine (deleteName sampleStore (some "constructor") "alice").2.data) "alice"
      = none := by
  decide

/-- Claim C2 fails on the code: with both tables empty, registering the
unused username `constructor` is answered 400; and the unused empty username
registers (201) and logs in (200 with a token), but `authMiddleware` rejects
that token because the session maps it to the empty string. -/
theorem register_login_special_usernames :
    (emptyTables.users.bind (fun u => getOwnProp u "constructor")) = none ∧
    (register markerBcrypt pristine emptyTables "constructor" "pw1"
      "2024-01-01T00:00:00.000Z").1.status? = some 400 ∧
    (register markerBcrypt pristine emptyTables "" "pw1" "2024-01-01T00:00:00.000Z").1.status?
      = some 201 ∧
    (login markerBcrypt pristine
      (register markerBcrypt pristine emptyTables "" "pw1" "2024-01-01T00:00:00.000Z").2
      "" "pw1" "0f8fad5b-d9cb-469f-a165-70867728950e").1
      = .responded ⟨200, .login "0f8fad5b-d9cb-469f-a165-70867728950e" ""⟩ ∧
    authMiddleware pristine
      (login markerBcrypt pristine
        (register markerBcrypt pristine emptyTables "" "pw1" "2024-01-01T00:00:00.000Z").2
        "" "pw1" "0f8fad5b-d9cb-469f-a165-70867728950e").2
      (some "0f8fad5b-d9cb-469f-a165-70867728950e") = .rejected notLoggedIn := by
  decide

/-- Claim C3 fails on the code: after `POST /logout` with the token
`constructor` (answered 200), `authMiddleware` still accepts that token. -/
theorem logout_keeps_inherited_token :
    (logout pristine sampleStore.users (some "constructor")).1.status? = some 200 ∧
    authMiddleware pristine (logout pristine sampleStore.users (some "constructor")).2
      (some "constructor") = .next (.inherited "constructor") := by
  decide

/-- Claim C4 fails on the code: with both tables empty and the unused username
`constructor`, for every password hashing primitive and all passwords, both
registrations are answered 400 and neither login responds (the lookup finds an
inherited member without `passwordHash`), where the claim says 401 and 200;
with an empty `users.json` and the username `__proto__`, the first
registration is answered 201 but stores no user, and login does not respond. -/
theorem reregister_inherited_username (bc : Bcrypt) (p1 p2 t1 t2 token : String) :
    (emptyTables.users.bind (fun u => getOwnProp u "constructor")) = none ∧
    (register bc pristine emptyTables "constructor" p1 t1).1.status? = some 400 ∧
    (register bc pristine (register bc pristine emptyTables "constructor" p1 t1).2
      "constructor" p2 t2).1.status? = some 400 ∧
    (login bc pristine
      (register bc pristine (register bc pristine emptyTables "constructor" p1 t1).2
        "constructor" p2 t2).2 "constructor" p2 token).1 = .threw ∧
    (login bc pristine
      (register bc pristine (register bc pristine emptyTables "constructor" p1 t1).2
        "constructor" p2 t2).2 "constructor" p1 token).1 = .threw ∧
    (register bc pristine ⟨none, none⟩ "__proto__" p1 t1).1.status? = some 201 ∧
    (register bc pristine ⟨none, none⟩ "__proto__" p1 t1).2 = emptyTables ∧
    (login bc pristine
      (register bc pristine (register bc pristine ⟨none, none⟩ "__proto__" p1 t1).2
        "__proto__" p2 t2).2 "__proto__" p1 token).1 = .threw :=
  ⟨rfl, rfl, rfl, rfl, rfl, rfl, rfl, rfl⟩

/-- Claim C5 fails on the code: `toString` is not a key of the ledger, yet an
authenticated `POST /add` with that name is answered 400 "Name existiert
bereits" and adds nothing. -/
theorem add_rejects_inherited_name :
    getOwnProp sampleStore.data "toString" = none ∧
    postAdd sampleStore (some "T") "toString"
      = (.responded ⟨400, .message "Name existiert bereits"⟩, sampleStore) := by
  decide

/-- Claim C7 fails on the code: `toString` and `valuePerClick` are not keys of
`GET /names`, yet increment and delete of `toString` are answered 200, delete
of `valuePerClick` is answered 200 and removes the entry from the file, and
increment of `valuePerClick` throws. -/
theorem unknown_names_not_404 (engine : Engine) :
    getOwnProp (listCounters pristine sampleStore.data) "toString" = none ∧
    getOwnProp (listCounters pristine sampleStore.data) "valuePerClick" = none ∧
    (postIncrement engine sampleStore (some "T") "toString"
      "2024-01-03T00:00:00.000Z").1.status? = some 200 ∧
    (deleteName sampleStore (some "T") "toString").1.status? = some 200 ∧
    (postIncrement engine sampleStore (some "T") "valuePerClick"
      "2024-01-03T00:00:00.000Z").1 = .threw ∧
    (deleteName sampleStore (some "T") "valuePerClick").1.status? = some 200 ∧
    getOwnProp (deleteName sampleStore (some "T") "valuePerClick").2.data "valuePerClick"
      = none :=
  ⟨by decide, by decide, rfl, by decide, rfl, by decide, by decide⟩

/-- Claim C8 fails on the code: `GET /config` answers 2 on the sample store,
and 0.5 after an authenticated `DELETE /delete/valuePerClick` (answered 200). -/
theorem delete_valuePerClick_resets_config :
    getConfig pristine sampleStore.data = .own (.num 2) ∧
    (deleteName sampleStore (some "T") "valuePerClick").1
      = .responded ⟨200, .message "Name gelöscht"⟩ ∧
    getConfig pristine (deleteName sampleStore (some "T") "valuePerClick").2.data
      = .own (.num oneHalf) := by
  decide

/-- Claim C9 fails on the code: on the sample store, whose entries other than
`valuePerClick` are counter records, an authenticated
`POST /increment/__proto__` is answered 200 and leaves the files as they are,
but writes `count` and `lastClickedAt` on `Object.prototype`; from then on the
loop of the reset handler reaches the inherited `count`, the assignment throws
before `writeData`, and `POST /reset` resets no counter. -/
theorem reset_throws_after_proto_increment (engine : Engine) :
    (postIncrement engine sampleStore (some "T") "__proto__"
      "2024-01-03T00:00:00.000Z").1.status? = some 200 ∧
    (postIncrement engine sampleStore (some "T") "__proto__"
      "2024-01-03T00:00:00.000Z").2.data = sampleStore.data ∧
    (postIncrement engine sampleStore (some "T") "__proto__"
      "2024-01-03T00:00:00.000Z").2.users = sampleStore.users ∧
    (postReset (postIncrement engine sampleStore (some "T") "__proto__"
      "2024-01-03T00:00:00.000Z").2 (some "T")).1 = .threw ∧
    getOwnProp
      (listCounters (some "2024-01-03T00:00:00.000Z")
        (postReset (postIncrement engine sampleStore (some "T") "__proto__"
          "2024-01-03T00:00:00.000Z").2 (some "T")).2.data) "alice"
      = some (.counter 3 (some "2024-01-02T00:00:00.000Z")) ∧
    (postReset sampleStore (some "T")).1.status? = some 200 :=
  ⟨rfl, rfl, rfl, rfl, rfl, by decide⟩
/-- Claim C6, as stated, fails at three inputs.  A counter whose count is 2^53
is answered 200 and keeps the count 2^53 (`count++` is double arithmetic).  A
counter named by the empty string is listed by `GET /names`, but the path
`/api/increment/` matches no route, so the request is answered 404 and nothing
changes.  And when `data.json` holds a `valuePerClick` beyond the double range,
`GET /config` answers `null` before an increment and 0.5 after it, because the
write stores `null`. -/
theorem increment_fails_at_bounds :
    getOwnProp
      (listCounters pristine [("a", JsVal.counter (2 ^ 53) none)]) "a"
      = some (.counter (2 ^ 53) none) ∧
    (postIncrement unusedEngine ⟨[("a", .counter (2 ^ 53) none)], bilalSession, pristine⟩ (some "T")
      "a" "2024-01-03T00:00:00.000Z").1.status? = some 200 ∧
    getOwnProp
      (listCounters pristine
        (postIncrement unusedEngine ⟨[("a", .counter (2 ^ 53) none)], bilalSession, pristine⟩
          (some "T") "a" "2024-01-03T00:00:00.000Z").2.data) "a"
      = some (.counter (2 ^ 53) (some "2024-01-03T00:00:00.000Z")) ∧
    getOwnProp (listCounters pristine [("", JsVal.counter 3 none)]) ""
      = some (.counter 3 none) ∧
    postIncrement unusedEngine ⟨[("", .counter 3 none)], bilalSession, pristine⟩ (some "T")
      "" "2024-01-03T00:00:00.000Z"
      = (.responded notRouted, ⟨[("", .counter 3 none)], bilalSession, pristine⟩) ∧
    getConfig pristine [("a", .counter 3 none), ("valuePerClick", .infinity false)]
      = .own .null ∧
    getConfig pristine
      (postIncrement unusedEngine
        ⟨[("a", .counter 3 none), ("valuePerClick", .infinity false)], bilalSession, pristine⟩
        (some "T") "a" "2024-01-03T00:00:00.000Z").2.data
      = .own (.num oneHalf) := by
  decide

/-- Claim C6, amended: for a non-empty name that `GET /names` reports as an
object whose `count` is a natural number `c` below 2^53, an authenticated
`POST /increment/:name` responds 200 and afterwards that entry has count
`c + 1` and `lastClickedAt` equal to the timestamp of the call (its other
properties as before), while the counter names, every other entry of
`GET /names`, the credential file and the prototype state are unchanged, and
so is the answer of `GET /config` when the stored `valuePerClick` is not a
number beyond the double range; on a counter just created by `POST /add` the
count becomes 1. -/
theorem increment_touches_only_named (engine : Engine) (st : Store)
    (authorization : Option String) (user : Lookup String) (name now : String)
    (hauth : authMiddleware st.proto st.users authorization = .next user)
    (hname : name ≠ "") :
    (∀ (props : List (String × JsVal)) (c : ℕ),
      getOwnProp (listCounters st.proto st.data) name = some (.obj props) →
      getOwnProp props "count" = some (.num (c : ℚ)) →
      c < 2 ^ 53 →
      (postIncrement engine st authorization name now).1.status? = some 200 ∧
      getOwnProp
        (listCounters st.proto (postIncrement engine st authorization name now).2.data) name
        = some (.obj (setProp (setProp props "count" (.num ((c + 1 : ℕ) : ℚ)))
            "lastClickedAt" (.str now))) ∧
      ownKeys (listCounters st.proto (postIncrement engine st authorization name now).2.data)
        = ownKeys (listCounters st.proto st.data) ∧
      (∀ other, other ≠ name →
        getOwnProp
          (listCounters st.proto (postIncrement engine st authorization name now).2.data) other
          = getOwnProp (listCounters st.proto st.data) other) ∧
      ((∀ b, getOwnProp st.data "valuePerClick" ≠ some (.infinity b)) →
        getConfig st.proto (postIncrement engine st authorization name now).2.data
          = getConfig st.proto st.data) ∧
      (postIncrement engine st authorization name now).2.users = st.users ∧
      (postIncrement engine st authorization name now).2.proto = st.proto) ∧
    ((postAdd st authorization name).1.status? = some 201 →
      (postIncrement engine (postAdd st authorization name).2 authorization name now).1.status?
        = some 200 ∧
      getOwnProp
        (listCounters st.proto
          (postIncrement engine (postAdd st authorization name).2 authorization name
            now).2.data) name
        = some (.counter 1 (some now))) := by
  constructor
  · intro props c h hcount hc
    obtain ⟨h1, h2, h3, h4, h5, h6⟩ :=
      incrementHandler_spec engine st.proto st.data name now props c h hcount hc
    unfold postIncrement
    rw [if_neg hname, hauth]
    exact ⟨h1, h3, h4, h5, h6, rfl, h2⟩
  · intro hadd
    unfold postAdd at hadd ⊢
    rw [withAuth_next st authorization user _ hauth] at hadd ⊢
    obtain ⟨hne, _, hown⟩ := addHandler_created st.proto st.data name hadd
    have hl : getOwnProp (listCounters st.proto (addHandler st.proto st.data name).2) name
        = some (.obj [("count", .num ((0 : ℕ) : ℚ)), ("lastClickedAt", .null)]) := by
      rw [getOwnProp_listCounters_other _ _ name hne, hown]
      rfl
    obtain ⟨h1, _, h3, _⟩ :=
      incrementHandler_spec engine st.proto (addHandler st.proto st.data name).2 name now
        [("count", .num ((0 : ℕ) : ℚ)), ("lastClickedAt", .null)] 0 hl rfl (by norm_num)
    unfold postIncrement
    simp only []
    rw [if_neg hname, hauth]
    exact ⟨h1, h3⟩

/-- Witness for `increment_touches_only_named`: the session `T` increments
`alice` from 3 to 4, and increments the freshly added `carol` to 1. -/
theorem increment_touches_only_named_witness :
    (getOwnProp (listCounters pristine sampleStore.data) "alice"
        = some (.counter 3 (some "2024-01-02T00:00:00.000Z")) ∧
      getOwnProp
        (listCounters pristine
          (postIncrement unusedEngine sampleStore (some "T") "alice"
            "2024-01-03T00:00:00.000Z").2.data)
        "alice" = some (.counter 4 (some "2024-01-03T00:00:00.000Z"))) ∧
    ((postAdd sampleStore (some "T") "carol").1.status? = some 201 ∧
      getOwnProp
        (listCounters pristine
          (postIncrement unusedEngine (postAdd sampleStore (some "T") "carol").2 (some "T")
            "carol" "2024-01-03T00:00:00.000Z").2.data) "carol"
        = some (.counter 1 (some "2024-01-03T00:00:00.000Z"))) :=
  ⟨⟨by decide,
    ((increment_touches_only_named unusedEngine sampleStore (some "T") (.own "bilal") "alice"
      "2024-01-03T00:00:00.000Z" (by decide) (by decide)).1
      [("count", .num 3), ("lastClickedAt", .str "2024-01-02T00:00:00.000Z")] 3
      (by decide) (by decide) (by decide)).2.1⟩,
   ⟨by decide,
    ((increment_touches_only_named unusedEngine sampleStore (some "T") (.own "bilal") "carol"
      "2024-01-03T00:00:00.000Z" (by decide) (by decide)).2 (by decide)).2⟩⟩
/-- Claim C10, as stated, fails: after `POST /config` with `valuePerClick: 0`
the file holds 0, yet `GET /config` answers 0.5; it answers 0.5 for a ledger
that does hold a `valuePerClick` entry (the entry 0); and a supplied number
beyond the double range is stored as `null` and read back as 0.5. -/
theorem setConfig_zero_reads_default :
    getOwnProp (postConfig sampleStore (some "T") (some (.num 0))).2.data "valuePerClick"
      = some (.num 0) ∧
    getConfig pristine (postConfig sampleStore (some "T") (some (.num 0))).2.data
      = .own (.num oneHalf) ∧
    getConfig pristine (postConfig sampleStore (some "T") (some (.num 0))).2.data
      ≠ .own (.num 0) ∧
    getOwnProp [("valuePerClick", JsVal.num 0)] "valuePerClick" ≠ none ∧
    getConfig pristine [("valuePerClick", JsVal.num 0)] = .own (.num oneHalf) ∧
    getOwnProp (postConfig sampleStore (some "T") (some (.infinity false))).2.data
      "valuePerClick" = some .null ∧
    getConfig pristine (postConfig sampleStore (some "T") (some (.infinity false))).2.data
      = .own (.num oneHalf) := by
  decide

/-- Claim C10, amended: after an authenticated `POST /config` with value `v`
the ledger stores `v` as JSON writes it (a number beyond the double range
becomes `null`), every counter is unchanged, and `GET /config` returns the
stored value when it is truthy and 0.5 otherwise; in general `GET /config`
returns the stored `valuePerClick`, as JSON writes it, when it is truthy and
0.5 when it is missing or falsy. -/
theorem setConfig_getConfig (st : Store) (authorization : Option String)
    (user : Lookup String) (v : JsVal)
    (hauth : authMiddleware st.proto st.users authorization = .next user) :
    (postConfig st authorization (some v)).1.status? = some 200 ∧
    getOwnProp (postConfig st authorization (some v)).2.data "valuePerClick"
      = some (jsonRoundTrip v) ∧
    getConfig st.proto (postConfig st authorization (some v)).2.data
      = .own (if (jsonRoundTrip v).truthy then jsonRoundTrip v else .num oneHalf) ∧
    listCounters st.proto (postConfig st authorization (some v)).2.data
      = listCounters st.proto st.data ∧
    (postConfig st authorization (some v)).2.users = st.users ∧
    (postConfig st authorization (some v)).2.proto = st.proto ∧
    (∀ (proto : ProtoState) (file : JsObj JsVal), getConfig proto file =
      .own (jsonRoundTrip (match getOwnProp file "valuePerClick" with
        | some x => if x.truthy then x else .num oneHalf
        | none => .num oneHalf))) := by
  unfold postConfig
  rw [withAuth_next st authorization user _ hauth]
  have hset : getOwnProp (setProp (readData st.proto st.data) "valuePerClick" v) "valuePerClick"
      = some v := getOwnProp_setProp_same _ _ _ (Or.inl (by decide))
  have hstored : getOwnProp
      (writeData (setProp (readData st.proto st.data) "valuePerClick" v)) "valuePerClick"
      = some (jsonRoundTrip v) := by
    unfold writeData
    rw [getOwnProp_jsonRoundTripProps, hset]
    rfl
  refine ⟨rfl, hstored, ?_, ?_, rfl, rfl, getConfig_eq⟩
  · simp only [configHandler]
    rw [getConfig_eq, hstored]
    by_cases ht : (jsonRoundTrip v).truthy = true
    · simp only [ht, if_true, jsonRoundTrip_idem]
    · simp only [ht]
      rfl
  · simp only [configHandler]
    rw [listCounters_writeData, deleteProp_setProp_same]
    rfl

/-- Witness for `setConfig_getConfig`: the session `T` stores 3 and reads 3. -/
theorem setConfig_getConfig_witness :
    authMiddleware pristine sampleStore.users (some "T") = .next (.own "bilal") ∧
    getOwnProp (postConfig sampleStore (some "T") (some (.num 3))).2.data "valuePerClick"
      = some (.num 3) ∧
    getConfig pristine (postConfig sampleStore (some "T") (some (.num 3))).2.data
      = .own (.num 3) :=
  ⟨by decide,
   (setConfig_getConfig sampleStore (some "T") (.own "bilal") (.num 3) (by decide)).2.1,
   (setConfig_getConfig sampleStore (some "T") (.own "bilal") (.num 3) (by decide)).2.2.1⟩

end Phrasenschwein
